import Mathlib

/-!
Verification of the fractale-mcp workflow orchestration core.

A shallow embedding, in Lean 4, of the workflow-orchestration core of the
fractale-mcp repository:

* the plan compiler (`src/fractale/core/plan/plan.py`),
* the native workflow state machine (`src/fractale/engines/native/state_machine.py`),
* tool-result classification (`src/fractale/engines/native/result.py`),
* the manager run loop and its recovery policy (`src/fractale/agent/manager/agent.py`).

Python dictionaries are modelled as insertion-ordered association lists with
Python `dict` assignment semantics (an assignment to an existing key replaces
the value in place, otherwise the pair is appended).  JSON values produced by
`json.loads` are modelled by the inductive type `JVal` (numbers restricted to
integers; no claim treated here depends on floating point).  Python exceptions
are modelled with `Except` / explicit error constructors.  The `json.loads`
function itself is an external library: where the code calls it the embedding
takes the parse function as an explicit argument `jparse : String → Option JVal`
(returning `none` exactly when `json.loads` would raise), so every theorem
quantifying over it holds for the real parser.
-/

namespace Fractale

/-- Python exception kinds that the embedded code can raise. -/
inductive PyErr where
  | nameError (n : String)
  | attributeError (s : String)
  | keyError (s : String)
  | valueError (s : String)
  | fuelExhausted
deriving DecidableEq, Repr

/-- JSON values as produced by `json.loads` (numbers restricted to integers). -/
inductive JVal where
  | null
  | bool (b : Bool)
  | num (n : Int)
  | str (s : String)
  | arr (l : List JVal)
  | obj (l : List (String × JVal))

/-- Python `dict` lookup `d.get(k)` on an insertion-ordered association list. -/
def dictGet (d : List (String × α)) (k : String) : Option α :=
  match d with
  | [] => none
  | (k0, v) :: rest => if k0 = k then some v else dictGet rest k

/-- Python `dict` lookup with default, `d.get(k, dflt)`. -/
def dictGetD (d : List (String × α)) (k : String) (dflt : α) : α :=
  (dictGet d k).getD dflt

/-- Python `dict` assignment `d[k] = v`: replaces the value in place when the
key is present (keeping its position in insertion order), appends otherwise. -/
def dictSet (d : List (String × α)) (k : String) (v : α) : List (String × α) :=
  match d with
  | [] => [(k, v)]
  | (k0, v0) :: rest => if k0 = k then (k, v) :: rest else (k0, v0) :: dictSet rest k v

theorem dictGet_dictSet (d : List (String × α)) (k k' : String) (v : α) :
    dictGet (dictSet d k v) k' = if k = k' then some v else dictGet d k' := by
  induction d with
  | nil => simp [dictSet, dictGet]
  | cons kv rest ih =>
    obtain ⟨k0, v0⟩ := kv
    by_cases h0 : k0 = k
    · subst h0
      by_cases h1 : k0 = k'
      · subst h1; simp [dictSet, dictGet]
      · simp [dictSet, dictGet, h1, fun h => h1 (Eq.symm h)]
    · by_cases h1 : k0 = k'
      · subst h1
        have hkk : ¬ k = k0 := fun h => h0 h.symm
        simp [dictSet, dictGet, h0, hkk]
      · simp [dictSet, dictGet, h0, h1, ih]

/-!
Plan compiler (`src/fractale/core/plan/plan.py`, `schema.py`, `step.py`).

A raw step is the step dictionary of a plan document after `jsonschema`
structural validation (`plan_schema` in `schema.py`): `name` is required and a
string, all other fields optional.  `transitions` is an insertion-ordered
mapping from event names to target state names.  The `initial` key that
`Plan.do_compile` writes into the step dictionary is modelled as a `Bool`
(`false` for "key absent", matching the truthiness test `s.get("initial")`).
`Step` objects in the source are thin wrappers around the spec dictionary, so
a compiled state is represented by its (possibly mutated) `StepSpec`.
-/

/-- One raw step dictionary of a plan document (and, equally, the spec carried
by a compiled `Step` object). -/
structure StepSpec where
  name : String
  type : Option String := none
  prompt : Option String := none
  tool : Option String := none
  transitions : Option (List (String × String)) := none
  initial : Bool := false
  inputs : List (String × String) := []
  args : List (String × String) := []
deriving DecidableEq, Repr

/-- Embeds `Step.type`: `self.spec.get("type", "agent")`. -/
def StepSpec.kind (s : StepSpec) : String :=
  s.type.getD "agent"

/-- Embeds `Step.transitions`: `self.spec.get("transitions", \x7b\x7d)`. -/
def StepSpec.transitionsD (s : StepSpec) : List (String × String) :=
  s.transitions.getD []

/-- The reserved terminal state `Step({"name": "success", "type": "final"})`. -/
def successStep : StepSpec :=
  { name := "success", type := some "final" }

/-- The reserved terminal state `Step({"name": "failed", "type": "final"})`. -/
def failedStep : StepSpec :=
  { name := "failed", type := some "final" }

/-- The target injected for the `success` event of step `i` when it lacks
`transitions`: `step_names[i + 1] if (i + 1 < len(step_names)) else "success"`. -/
def nextNode (names : List String) (i : Nat) : String :=
  if i + 1 < names.length then names.getD (i + 1) "success" else "success"

/-- The per-step mutation `Plan.do_compile` performs on the raw step dictionary
at index `i`: inject linear-flow `transitions` when absent and mark index 0
`initial`.  (`do_compile` mutates `step_data` in place; the compiled `Step`
wraps the same dictionary.) -/
def compileStep (names : List String) (i : Nat) (s : StepSpec) : StepSpec :=
  let s :=
    if s.transitions.isNone then
      { s with transitions := some [("success", nextNode names i), ("failure", "failed")] }
    else s
  if i = 0 then { s with initial := true } else s

/-- Apply `compileStep` to every step, numbering from `i`. -/
def compileSteps (names : List String) (i : Nat) : List StepSpec → List StepSpec
  | [] => []
  | s :: rest => compileStep names i s :: compileSteps names (i + 1) rest

/-- Embeds `Plan.do_compile(raw_steps)`: the compiled state dictionary (terminals
first, then each user step, with `dict` assignment semantics) together with
the mutated raw step list that the loop leaves behind. -/
def doCompile (raw : List StepSpec) : List (String × StepSpec) × List StepSpec :=
  ((compileSteps (raw.map (fun s => s.name)) 0 raw).foldl
      (fun d s => dictSet d s.name s)
      [("success", successStep), ("failed", failedStep)],
   compileSteps (raw.map (fun s => s.name)) 0 raw)

/-- A raw plan document after `jsonschema` structural validation
(`raw_data.get("steps", [])` and `raw_data.get("inputs", {})`). -/
structure RawPlan where
  name : String
  description : Option String := none
  inputs : List (String × String) := []
  steps : List StepSpec := []
deriving DecidableEq, Repr

/-- Embeds `Plan.validate_schema` → `schema.validate_plan`: the structural checks of
`plan_schema` that the typed representation does not already subsume.  The only
such dynamic check on the fields this development uses is the enum
`type ∈ {"agent", "tool"}` on each step (when the key is present); the
remaining schema clauses are type constraints that `RawPlan`/`StepSpec`
make unrepresentable.  Default-filling (`inputs`, `type`, `allow_tools`) is
not modelled: every reader of those fields re-applies the same default. -/
def validateSchema (p : RawPlan) : Except String Unit :=
  match p.steps.find? (fun s =>
      match s.type with
      | none => false
      | some t => !(t = "agent" || t = "tool")) with
  | some s => .error ("❌ Plan YAML invalid: step type not in enum: " ++ s.name ++ "!")
  | none => .ok ()

/-- The valid transition-target collection of `Plan.validate_transitions`:
`{s["name"] for s in steps} ∪ {"success", "failed"}` (membership view). -/
def validTargets (steps : List StepSpec) : List String :=
  steps.map (fun s => s.name) ++ ["success", "failed"]

/-- Python `sorted(list(valid_targets))` where `valid_targets` is a set:
the distinct valid targets in lexicographic order. -/
def sortedValidTargets (steps : List StepSpec) : List String :=
  ((validTargets steps).dedup).mergeSort (fun a b => a ≤ b)

/-- Python `str` rendering of a list of strings, in Python repr style with quoted elements. -/
def pyStrList (l : List String) : String :=
  "[" ++ String.intercalate ", " (l.map (fun s => "\x27" ++ s ++ "\x27")) ++ "]"

/-- Everything of the `Plan.validate_transitions` `ValueError` message that
precedes the rendered valid-target list. -/
def invalidTransitionMsgHead (stepName event target : String) : String :=
  "❌ Invalid Transition in step \x27" ++ stepName ++ "\x27:\n" ++
    "   Cannot transition on \x27" ++ event ++ "\x27 to \x27" ++ target ++ "\x27.\n" ++
    "   \x27" ++ target ++ "\x27 is not defined in the steps.\n" ++
    "   Valid targets: "

/-- The `ValueError` message `Plan.validate_transitions` raises for the first
invalid edge (step name, event, target). -/
def invalidTransitionMsg (steps : List StepSpec) (stepName event target : String) : String :=
  invalidTransitionMsgHead stepName event target ++ pyStrList (sortedValidTargets steps)

/-- First `(event, target)` edge of one step whose target is not valid. -/
def firstBadEdge (valid : List String) : List (String × String) → Option (String × String)
  | [] => none
  | (ev, tgt) :: rest =>
    if tgt ∈ valid then firstBadEdge valid rest else some (ev, tgt)

/-- The inner loop of `Plan.validate_transitions` over the remaining steps. -/
def validateTransitionsGo (steps : List StepSpec) : List StepSpec → Except String Unit
  | [] => .ok ()
  | s :: rest =>
    match firstBadEdge (validTargets steps) s.transitionsD with
    | some (ev, tgt) => .error (invalidTransitionMsg steps s.name ev tgt)
    | none => validateTransitionsGo steps rest

/-- Embeds `Plan.validate_transitions`: every transition value must name a declared
step or a terminal, else `ValueError` listing the valid targets. -/
def validateTransitions (steps : List StepSpec) : Except String Unit :=
  validateTransitionsGo steps steps

/-- Embeds `Plan.__init__` on an in-memory plan dictionary: `validate_schema`, then
`validate_transitions`, then `states = do_compile(raw_data.get("steps", []))`.
Any `ValueError` aborts construction before a state graph exists. -/
def mkPlan (p : RawPlan) : Except String (List (String × StepSpec)) :=
  match validateSchema p with
  | .error e => .error e
  | .ok _ =>
    match validateTransitions p.steps with
    | .error e => .error e
    | .ok _ => .ok (doCompile p.steps).1

/-! ### Lemmas about plan compilation -/

theorem compileStep_name (names : List String) (i : Nat) (s : StepSpec) :
    (compileStep names i s).name = s.name := by
  unfold compileStep
  split <;> split <;> rfl

theorem compileStep_idem (names : List String) (i : Nat) (s : StepSpec) :
    compileStep names i (compileStep names i s) = compileStep names i s := by
  unfold compileStep
  by_cases h : s.transitions.isNone <;> by_cases h0 : i = 0 <;> simp [h, h0]

theorem compileSteps_map_name (names : List String) (i : Nat) (l : List StepSpec) :
    (compileSteps names i l).map (fun s => s.name) = l.map (fun s => s.name) := by
  induction l generalizing i with
  | nil => rfl
  | cons s rest ih => simp [compileSteps, compileStep_name, ih]

theorem compileSteps_idem (names : List String) (i : Nat) (l : List StepSpec) :
    compileSteps names i (compileSteps names i l) = compileSteps names i l := by
  induction l generalizing i with
  | nil => rfl
  | cons s rest ih => simp [compileSteps, compileStep_idem, ih]

/-- C5: plan compilation is deterministic.  `Plan.do_compile` mutates the raw
step dictionaries (injecting default transitions and the `initial` mark);
compiling the very same raw plan again therefore runs on the mutated list, and
the claim holds exactly when that second compilation reproduces the first
state graph (and leaves the raw steps unchanged).  It does: the compiled
dictionary, the state names, every per-step `transitions` map and the
`initial` marking agree. -/
theorem c5_doCompile_deterministic (raw : List StepSpec) :
    doCompile ((doCompile raw).2) = doCompile raw := by
  unfold doCompile
  simp only [compileSteps_map_name, compileSteps_idem]

theorem compileSteps_append_congr (names : List String) (pre post : List StepSpec)
    (s s' : StepSpec) (i : Nat)
    (h : compileStep names (i + pre.length) s = compileStep names (i + pre.length) s') :
    compileSteps names i (pre ++ s :: post) = compileSteps names i (pre ++ s' :: post) := by
  induction pre generalizing i with
  | nil =>
    simp only [List.nil_append, compileSteps]
    simp only [List.length_nil, Nat.add_zero] at h
    rw [h]
  | cons p rest ih =>
    simp only [List.cons_append, compileSteps, List.append_eq]
    have h2 : compileStep names ((i + 1) + rest.length) s =
        compileStep names ((i + 1) + rest.length) s' := by
      simpa [List.length_cons, Nat.add_comm, Nat.add_left_comm, Nat.add_assoc] using h
    rw [ih (i + 1) h2]

/-- The explicit transitions map that C6 claims is equivalent to omitting the
`transitions` field for the step at position `i` of the declared list. -/
def defaultTransitions (names : List String) (i : Nat) : List (String × String) :=
  [("success", nextNode names i), ("failure", "failed")]

/-- C6: a step declared with no `transitions` compiles exactly as the same
step declared with the explicit default `{success: next declared step (or
"success" when last), failure: "failed"}` — the whole compiled output
(state graph and mutated raw list) is identical, so all later behaviour is. -/
theorem c6_default_transitions (pre post : List StepSpec) (s : StepSpec)
    (h : s.transitions = none) :
    doCompile (pre ++ s :: post) =
      doCompile (pre ++
        { s with
          transitions :=
            some (defaultTransitions ((pre ++ s :: post).map (fun t => t.name)) pre.length) }
        :: post) := by
  have hname : ((pre ++ s :: post).map (fun t => t.name)) =
      ((pre ++
        { s with
          transitions :=
            some (defaultTransitions ((pre ++ s :: post).map (fun t => t.name)) pre.length) }
        :: post).map (fun t => t.name)) := by
    simp
  have hstep : compileStep ((pre ++ s :: post).map (fun t => t.name)) (0 + pre.length) s =
      compileStep ((pre ++ s :: post).map (fun t => t.name)) (0 + pre.length)
        { s with
          transitions :=
            some (defaultTransitions ((pre ++ s :: post).map (fun t => t.name)) pre.length) } := by
    simp [compileStep, defaultTransitions, h, Nat.zero_add]
  have hmut := compileSteps_append_congr ((pre ++ s :: post).map (fun t => t.name))
    pre post _ _ 0 hstep
  unfold doCompile
  rw [← hname, hmut]

/-- C6 witness: compiling `[A, B]` with `B` lacking `transitions` equals
compiling it with the transitions of `B` given explicitly as
`{success: "success", failure: "failed"}` (B is the last declared step). -/
theorem c6_default_transitions_witness :
    ({ name := "B" } : StepSpec).transitions = none ∧
    doCompile [({ name := "A" } : StepSpec), { name := "B" }] =
      doCompile [({ name := "A" } : StepSpec),
        { name := "B",
          transitions :=
            some (defaultTransitions
              (([({ name := "A" } : StepSpec)] ++ ({ name := "B" } : StepSpec) :: []).map (fun t => t.name))
              1) }] :=
  ⟨rfl, c6_default_transitions [{ name := "A" }] [] { name := "B" } rfl⟩

theorem firstBadEdge_none (valid : List String) (l : List (String × String))
    (h : firstBadEdge valid l = none) : ∀ e ∈ l, e.2 ∈ valid := by
  induction l with
  | nil => intro e he; cases he
  | cons p rest ih =>
    intro e he
    obtain ⟨ev, tgt⟩ := p
    by_cases hp : tgt ∈ valid
    · rcases List.mem_cons.mp he with he | he
      · rw [he]; exact hp
      · exact ih (by simpa [firstBadEdge, hp] using h) e he
    · exfalso
      simp [firstBadEdge, hp] at h

theorem validateTransitionsGo_ok (steps : List StepSpec) (l : List StepSpec)
    (h : validateTransitionsGo steps l = .ok ()) :
    ∀ s ∈ l, ∀ e ∈ s.transitionsD, e.2 ∈ validTargets steps := by
  induction l with
  | nil => intro s hs; cases hs
  | cons s0 rest ih =>
    intro s hs e he
    rcases List.mem_cons.mp hs with hs | hs
    · subst hs
      cases hfb : firstBadEdge (validTargets steps) s.transitionsD with
      | none => exact firstBadEdge_none _ _ hfb e he
      | some bad =>
        exfalso
        obtain ⟨ev, tgt⟩ := bad
        simp [validateTransitionsGo, hfb] at h
    · cases hfb : firstBadEdge (validTargets steps) s0.transitionsD with
      | none =>
        apply ih _ s hs e he
        simpa [validateTransitionsGo, hfb] using h
      | some bad =>
        exfalso
        obtain ⟨ev, tgt⟩ := bad
        simp [validateTransitionsGo, hfb] at h

theorem validateTransitionsGo_error_shape (steps : List StepSpec) (l : List StepSpec)
    (m : String) (h : validateTransitionsGo steps l = .error m) :
    ∃ n ev tgt, m = invalidTransitionMsgHead n ev tgt ++ pyStrList (sortedValidTargets steps) := by
  induction l with
  | nil => simp [validateTransitionsGo] at h
  | cons s0 rest ih =>
    cases hfb : firstBadEdge (validTargets steps) s0.transitionsD with
    | none =>
      apply ih
      simpa [validateTransitionsGo, hfb] using h
    | some bad =>
      obtain ⟨ev, tgt⟩ := bad
      refine ⟨s0.name, ev, tgt, ?h⟩
      simp [validateTransitionsGo, hfb, invalidTransitionMsg] at h
      exact h.symm

/-- C7: if any step of a (schema-valid) raw plan has an explicit transition
whose target is neither a declared step name nor one of the terminals
`success` / `failed`, then `Plan` construction fails with a `ValueError`
whose message ends with the rendered sorted list of valid targets, and no
state graph is ever produced (so no step can execute). -/
theorem c7_invalid_transition_rejected (p : RawPlan)
    (hschema : validateSchema p = .ok ())
    (hbad : ∃ s ∈ p.steps, ∃ e ∈ s.transitionsD, e.2 ∉ validTargets p.steps) :
    ∃ head, mkPlan p = .error (head ++ pyStrList (sortedValidTargets p.steps)) := by
  cases hvt : validateTransitions p.steps with
  | ok u =>
    exfalso
    obtain ⟨s, hs, e, he, hnot⟩ := hbad
    cases u
    exact hnot (validateTransitionsGo_ok p.steps p.steps hvt s hs e he)
  | error m =>
    obtain ⟨n, ev, tgt, hm⟩ := validateTransitionsGo_error_shape p.steps p.steps m hvt
    refine ⟨invalidTransitionMsgHead n ev tgt, ?h⟩
    rw [← hm]
    simp [mkPlan, hschema, hvt]

/-- A raw plan with a dangling transition target (`Z` is not declared). -/
def c7BadPlan : RawPlan :=
  { name := "p", steps := [{ name := "A", transitions := some [("success", "Z")] }] }

/-- C7 witness: the plan `{name: "p", steps: [{name: "A",
transitions: {success: "Z"}}]}` has a dangling target `Z` and is rejected
with a message listing the valid targets. -/
theorem c7_invalid_transition_rejected_witness :
    validateSchema c7BadPlan = .ok () ∧
    (∃ s ∈ c7BadPlan.steps, ∃ e ∈ s.transitionsD, e.2 ∉ validTargets c7BadPlan.steps) ∧
    ∃ head, mkPlan c7BadPlan = .error (head ++ pyStrList (sortedValidTargets c7BadPlan.steps)) :=
  ⟨rfl, by decide, c7_invalid_transition_rejected c7BadPlan rfl (by decide)⟩

theorem dictGet_foldl_dictSet_of_not_mem (l : List StepSpec) (d : List (String × StepSpec))
    (k : String) (h : ∀ s ∈ l, s.name ≠ k) :
    dictGet (l.foldl (fun d s => dictSet d s.name s) d) k = dictGet d k := by
  induction l generalizing d with
  | nil => rfl
  | cons s rest ih =>
    simp only [List.foldl_cons]
    rw [ih _ (fun t ht => h t (List.mem_cons_of_mem s ht))]
    rw [dictGet_dictSet]
    simp [h s (List.mem_cons_self s rest)]

theorem dictGet_foldl_dictSet_isSome (l : List StepSpec) (d : List (String × StepSpec))
    (k : String) (h : (dictGet d k).isSome) :
    (dictGet (l.foldl (fun d s => dictSet d s.name s) d) k).isSome := by
  induction l generalizing d with
  | nil => exact h
  | cons s rest ih =>
    simp only [List.foldl_cons]
    apply ih
    rw [dictGet_dictSet]
    by_cases hk : s.name = k <;> simp [hk, h]

theorem mem_compileSteps_name (names : List String) (i : Nat) (l : List StepSpec)
    (s : StepSpec) (hs : s ∈ compileSteps names i l) :
    s.name ∈ l.map (fun t => t.name) := by
  rw [← compileSteps_map_name names i]
  exact List.mem_map_of_mem (fun t => t.name) hs

/-- C9 (amended): in every successfully constructed plan the keys `success`
and `failed` are present in the state graph, and — provided no user step
redeclares the name — they are exactly the kind-`final` terminal states.  A
raw plan that does redeclare one of them is, however, NOT rejected: its user
step silently overwrites the terminal entry (see the counterexample). -/
theorem c9_terminals_present (p : RawPlan) (states : List (String × StepSpec))
    (h : mkPlan p = .ok states) :
    (dictGet states "success").isSome ∧ (dictGet states "failed").isSome ∧
    ((∀ s ∈ p.steps, s.name ≠ "success") → dictGet states "success" = some successStep) ∧
    ((∀ s ∈ p.steps, s.name ≠ "failed") → dictGet states "failed" = some failedStep) := by
  have hstates : states = (doCompile p.steps).1 := by
    unfold mkPlan at h
    cases hs : validateSchema p with
    | error e => rw [hs] at h; cases h
    | ok u =>
      rw [hs] at h
      cases hv : validateTransitions p.steps with
      | error e => rw [hv] at h; cases h
      | ok v => rw [hv] at h; cases h; rfl
  subst hstates
  unfold doCompile
  refine ⟨?h1, ?h2, ?h3, ?h4⟩
  · exact dictGet_foldl_dictSet_isSome _ _ _ (by simp [dictGet])
  · exact dictGet_foldl_dictSet_isSome _ _ _ (by simp [dictGet])
  · intro hn
    rw [dictGet_foldl_dictSet_of_not_mem]
    · simp [dictGet]
    · intro s hs
      have := mem_compileSteps_name _ _ _ _ hs
      simp only [List.mem_map] at this
      obtain ⟨t, ht, hname⟩ := this
      rw [← hname]
      exact hn t ht
  · intro hn
    rw [dictGet_foldl_dictSet_of_not_mem]
    · simp [dictGet]
    · intro s hs
      have := mem_compileSteps_name _ _ _ _ hs
      simp only [List.mem_map] at this
      obtain ⟨t, ht, hname⟩ := this
      rw [← hname]
      exact hn t ht

/-- A raw plan that redeclares the reserved terminal `success` as an agent
step. -/
def c9RedeclPlan : RawPlan :=
  { name := "p", steps := [{ name := "success", type := some "agent" }] }

/-- The kind of the state stored under `k` in a construction result. -/
def planStateKind (r : Except String (List (String × StepSpec))) (k : String) : Option String :=
  match r with
  | .ok states => (dictGet states k).map (fun s => s.kind)
  | .error _ => none

/-- C9 counterexample: the plan `{name: "p", steps: [{name: "success",
type: "agent"}]}` redeclares the reserved terminal `success` as a user step,
yet `Plan` construction succeeds, and the `success` entry of the compiled graph is
the agent step (kind `"agent"`, not `final`) — the user step has overwritten
the terminal.  This falsifies both the "may not be redeclared" and the
"always final-kind" parts of the claim. -/
theorem c9_counterexample :
    planStateKind (mkPlan c9RedeclPlan) "success" = some "agent" := by rfl

/-- C9 witness: applying the amended theorem to the one-step plan
`{name: "p", steps: [{name: "A"}]}`. -/
theorem c9_terminals_present_witness :
    (dictGet (doCompile [({ name := "A" } : StepSpec)]).1 "success").isSome ∧
    (dictGet (doCompile [({ name := "A" } : StepSpec)]).1 "failed").isSome ∧
    ((∀ s ∈ [({ name := "A" } : StepSpec)], s.name ≠ "success") →
      dictGet (doCompile [({ name := "A" } : StepSpec)]).1 "success" = some successStep) ∧
    ((∀ s ∈ [({ name := "A" } : StepSpec)], s.name ≠ "failed") →
      dictGet (doCompile [({ name := "A" } : StepSpec)]).1 "failed" = some failedStep) :=
  c9_terminals_present { name := "p", steps := [{ name := "A" }] } _ rfl

/-!
Native workflow state machine (`src/fractale/engines/native/state_machine.py`).

The run context of the native engine maps keys to values that are either the
raw runner strings or the structured data `json.loads` recovered from them,
so it is modelled as `List (String × JVal)` (raw strings stored as
`JVal.str`).  A runner callback returns `(result, error, metadata)`; `result`
and `error` are strings or `None` (`Option String` here; the metadata is
opaque to the state machine and to every claim, so it is not carried).  The
template resolution of step `inputs` (`utils.resolve_templates`, external
Jinja2) only feeds the execution-scoped copy handed to the runner, whose
output is already a parameter here, so it does not appear.  `json.loads` is
the `jparse` parameter. -/

/-- The native-engine run context. -/
abbrev Ctx : Type := List (String × JVal)

/-- Python truthiness of an optional string (`None` and `""` are falsy). -/
def pyTruthyS (v : Option String) : Bool :=
  match v with
  | none => false
  | some s => !s.isEmpty

/-- Embeds `WorkflowStateMachine.update_context(step_name, result, error)`:
stores `_last_error` when `error` is truthy; when `result` is not `None`,
stores `_previous_result` (raw), then `result` and `<step_name>_result`
(the `json.loads` parse of the string when it parses, the raw string
otherwise). -/
def updateContext (jparse : String → Option JVal) (ctx : Ctx) (stepName : String)
    (result : Option String) (error : Option String) : Ctx :=
  let ctx := if pyTruthyS error then dictSet ctx "_last_error" (JVal.str (error.getD "")) else ctx
  match result with
  | none => ctx
  | some r =>
    let ctx := dictSet ctx "_previous_result" (JVal.str r)
    let parsed := (jparse r).getD (JVal.str r)
    let ctx := dictSet ctx "result" parsed
    dictSet ctx (stepName ++ "_result") parsed

/-- Line 73 of `state_machine.py`:
`outcome = "success" if (result and not error) else "failure"`. -/
def outcomeOf (result error : Option String) : String :=
  if pyTruthyS result && !pyTruthyS error then "success" else "failure"

/-- Steps 6–7 of `run_cycle`: `transitions.get(outcome)`, falling back to the
matching terminal when the entry is missing or falsy. -/
def nextStateOf (step : StepSpec) (outcome : String) : String :=
  let next := dictGet step.transitionsD outcome
  if !pyTruthyS next ∧ outcome = "success" then "success"
  else if !pyTruthyS next ∧ outcome = "failure" then "failed"
  else next.getD "failed"

/-- The per-cycle record `run_cycle` returns (`metadata` omitted: opaque). -/
structure StepTelemetry where
  agent : String
  result : Option String
  error : Option String
  transition : String
deriving DecidableEq, Repr

/-- The observable result of one `run_cycle` call: the returned pair plus the
mutated machine state (`self.context`, `self.current_state_name`). -/
structure CycleOut where
  telemetry : Option StepTelemetry
  finished : Bool
  context : Ctx
  current : String

/-- Embeds `WorkflowStateMachine.run_cycle()`, with the `(result, error)` pair
of the runner supplied as `runnerOut` (runner dispatch by step kind succeeds whenever
the kind is `agent` or `tool`; a missing state raises `KeyError`, a missing
runner `ValueError`). -/
def runCycle (jparse : String → Option JVal) (states : List (String × StepSpec))
    (runnerOut : Option String × Option String) (ctx : Ctx) (cur : String) :
    Except PyErr CycleOut :=
  match dictGet states cur with
  | none => .error (.keyError cur)
  | some step =>
    if step.kind = "final" then
      .ok { telemetry := none, finished := true, context := ctx, current := cur }
    else if !(step.kind = "agent" || step.kind = "tool") then
      .error (.valueError ("No runner for type \x27" ++ step.kind ++ "\x27"))
    else
      let result := runnerOut.1
      let error := runnerOut.2
      let ctx := updateContext jparse ctx step.name result error
      let outcome := outcomeOf result error
      let next := nextStateOf step outcome
      .ok { telemetry := some
              { agent := cur, result := result, error := error,
                transition := outcome ++ " -> " ++ next },
            finished := false, context := ctx, current := next }

/-- A `json.loads` model for inputs that are not valid JSON (e.g. `"hi"`). -/
def jnone : String → Option JVal := fun _ => none

/-- The compiled one-step plan `{steps: [{name: "s1"}]}`. -/
def states3 : List (String × StepSpec) :=
  (doCompile [({ name := "s1" } : StepSpec)]).1

/-- The value stored under key `k` of the context after a cycle (`none` when
the cycle raised). -/
def cycleCtxKey (r : Except PyErr CycleOut) (k : String) : Option (Option JVal) :=
  match r with
  | .ok o => some (dictGet o.context k)
  | .error _ => none

/-- The `finished` flag of a cycle result (`none` when the cycle raised). -/
def cycleFinished (r : Except PyErr CycleOut) : Option Bool :=
  match r with
  | .ok o => some o.finished
  | .error _ => none

/-- C3 counterexample: a non-terminal cycle of step `s1` with runner result
`"hi"` (no error) completes, yet the key `error_message` is NOT written into
the context (the machine uses `_last_error`, and only on error), falsifying
the claim that every non-terminal cycle writes `error_message`. -/
theorem c3_counterexample :
    cycleCtxKey (runCycle jnone states3 (some "hi", none) [] "s1") "error_message" = some none ∧
    cycleFinished (runCycle jnone states3 (some "hi", none) [] "s1") = some false := by
  constructor <;> rfl

/-- C3 (amended): `update_context` writes `_last_error` — not `error_message`
— and only when `error` is truthy; when the runner result is a string it
writes `_previous_result` (the raw string) and `result` and `<step>_result`
(the `json.loads` parse when the string parses, the raw string otherwise);
every other key of the context is left unchanged.  The key-distinctness side
conditions rule out a step literally named so that `<step>_result` collides
with one of the reserved keys. -/
theorem c3_update_context (jparse : String → Option JVal) (ctx : Ctx) (n : String)
    (r e : Option String) :
    (pyTruthyS e = true → ¬ n ++ "_result" = "_last_error" →
      dictGet (updateContext jparse ctx n r e) "_last_error" = some (JVal.str (e.getD ""))) ∧
    (∀ s, r = some s →
      dictGet (updateContext jparse ctx n r e) (n ++ "_result") =
        some ((jparse s).getD (JVal.str s))) ∧
    (∀ s, r = some s → ¬ n ++ "_result" = "result" →
      dictGet (updateContext jparse ctx n r e) "result" =
        some ((jparse s).getD (JVal.str s))) ∧
    (∀ s, r = some s → ¬ n ++ "_result" = "_previous_result" →
      dictGet (updateContext jparse ctx n r e) "_previous_result" = some (JVal.str s)) ∧
    (∀ k, ¬ k = "_last_error" → ¬ k = "_previous_result" → ¬ k = "result" →
      ¬ k = n ++ "_result" →
      dictGet (updateContext jparse ctx n r e) k = dictGet ctx k) := by
  cases r with
  | none =>
    refine ⟨?_, ?_, ?_, ?_, ?_⟩
    · intro he hne
      simp [updateContext, he, dictGet_dictSet]
    · intro s hs; cases hs
    · intro s hs; cases hs
    · intro s hs; cases hs
    · intro k h1 h2 h3 h4
      have n1 : ¬ ("_last_error" = k) := fun h => h1 h.symm
      by_cases he : pyTruthyS e <;>
        simp [updateContext, he, dictGet_dictSet, n1]
  | some s0 =>
    refine ⟨?_, ?_, ?_, ?_, ?_⟩
    · intro he hne
      have m4 : ¬ (n ++ "_result" = "_last_error") := hne
      simp [updateContext, he, dictGet_dictSet, m4]
    · intro s hs
      cases hs
      by_cases he : pyTruthyS e <;> simp [updateContext, he, dictGet_dictSet]
    · intro s hs hne
      cases hs
      by_cases he : pyTruthyS e <;>
        simp [updateContext, he, dictGet_dictSet, hne]
    · intro s hs hne
      cases hs
      by_cases he : pyTruthyS e <;>
        simp [updateContext, he, dictGet_dictSet, hne]
    · intro k h1 h2 h3 h4
      have n1 : ¬ ("_last_error" = k) := fun h => h1 h.symm
      have n2 : ¬ ("_previous_result" = k) := fun h => h2 h.symm
      have n3 : ¬ ("result" = k) := fun h => h3 h.symm
      have n4 : ¬ (n ++ "_result" = k) := fun h => h4 h.symm
      by_cases he : pyTruthyS e <;>
        simp [updateContext, he, dictGet_dictSet, n1, n2, n3, n4]

/-- C3 witness: the amended statement applied at step name `s1`, result
`"ok"`, error `"boom"` over the empty context, side conditions discharged. -/
theorem c3_update_context_witness :
    (pyTruthyS (some "boom") = true ∧ ¬ "s1" ++ "_result" = "_last_error") ∧
    dictGet (updateContext jnone [] "s1" (some "ok") (some "boom")) "_last_error" =
      some (JVal.str "boom") ∧
    dictGet (updateContext jnone [] "s1" (some "ok") (some "boom")) ("s1" ++ "_result") =
      some ((jnone "ok").getD (JVal.str "ok")) ∧
    dictGet (updateContext jnone [] "s1" (some "ok") (some "boom")) "error_message" =
      dictGet ([] : Ctx) "error_message" :=
  ⟨⟨by decide, by decide⟩,
    (c3_update_context jnone [] "s1" (some "ok") (some "boom")).1 (by decide) (by decide),
    (c3_update_context jnone [] "s1" (some "ok") (some "boom")).2.1 "ok" rfl,
    (c3_update_context jnone [] "s1" (some "ok") (some "boom")).2.2.2.2 "error_message"
      (by decide) (by decide) (by decide) (by decide)⟩

/-- C4: the cycle outcome is `"success"` exactly when the runner result is
truthy (non-empty, not `None`) and the error is falsy (`None` or empty);
every other combination — including an empty result with no error — yields
`"failure"`; and the transition recorded in the telemetry of `run_cycle` is driven
by exactly this outcome. -/
theorem c4_outcome_success_iff :
    ∀ (r e : Option String),
      ((outcomeOf r e = "success" ↔ (pyTruthyS r = true ∧ pyTruthyS e = false)) ∧
        (outcomeOf r e = "success" ∨ outcomeOf r e = "failure")) ∧
      ∀ (jparse : String → Option JVal) (states : List (String × StepSpec)) (ctx : Ctx)
        (cur : String) (out : CycleOut) (t : StepTelemetry),
        runCycle jparse states (r, e) ctx cur = .ok out → out.telemetry = some t →
        ∃ nx, t.transition = outcomeOf r e ++ " -> " ++ nx := by
  intro r e
  constructor
  · unfold outcomeOf
    by_cases h1 : pyTruthyS r <;> by_cases h2 : pyTruthyS e <;> simp [h1, h2]
  · intro jparse states ctx cur out t hok ht
    unfold runCycle at hok
    cases hst : dictGet states cur with
    | none => rw [hst] at hok; cases hok
    | some step =>
      rw [hst] at hok
      by_cases hfin : step.kind = "final"
      · simp only [hfin, if_true, if_pos, reduceIte] at hok
        cases hok
        simp at ht
      · simp only [hfin, reduceIte] at hok
        by_cases hkind : (step.kind = "agent" || step.kind = "tool")
        · simp only [hkind, Bool.not_true, reduceIte] at hok
          cases hok
          simp only [CycleOut.telemetry] at ht
          cases ht
          exact ⟨nextStateOf step (outcomeOf r e), rfl⟩
        · simp only [hkind, Bool.not_false, reduceIte] at hok
          cases hok

/-- C4 witness: the outcome test and the telemetry correspondence evaluated
on the one-step plan with runner output `("hi", None)`. -/
theorem c4_outcome_success_iff_witness :
    (outcomeOf (some "hi") none = "success" ↔
      (pyTruthyS (some "hi") = true ∧ pyTruthyS none = false)) ∧
    ∃ nx, ({ agent := "s1", result := some "hi", error := none,
             transition := "success -> success" } : StepTelemetry).transition =
      outcomeOf (some "hi") none ++ " -> " ++ nx :=
  ⟨(c4_outcome_success_iff (some "hi") none).1.1,
    (c4_outcome_success_iff (some "hi") none).2 jnone states3 [] "s1"
      { telemetry := some
          { agent := "s1", result := some "hi", error := none,
            transition := "success -> success" },
        finished := false,
        context := [("_previous_result", JVal.str "hi"), ("result", JVal.str "hi"),
          ("s1_result", JVal.str "hi")],
        current := "success" }
      { agent := "s1", result := some "hi", error := none,
        transition := "success -> success" }
      rfl rfl⟩

/-!
Tool-result classification (`src/fractale/engines/native/result.py`).

`parse_tool_response` first flattens the raw protocol response into a text
`content` and then tries `json.loads(content)`; the embedding therefore takes
the pair `(content, data)` — the flattened text and its parse — as input,
which covers every reachable raw response.  Strategy A (structured checks)
runs when `data` is a dict; Strategy B (text heuristics) runs whenever
Strategy A did not flag an error.  `.lower()` on a non-string `status` value
raises `AttributeError`, which propagates out of the function. -/

/-- Python `value != 0` for a JSON value (`True == 1`, `False == 0`; every
non-numeric, non-bool value is unequal to `0`). -/
def pyNeZeroJ (v : JVal) : Bool :=
  match v with
  | .num n => !(n == 0)
  | .bool b => b
  | .null => true
  | .str _ => true
  | .arr _ => true
  | .obj _ => true

/-- Python truthiness of a JSON value. -/
def pyTruthyJ (v : JVal) : Bool :=
  match v with
  | .null => false
  | .bool b => b
  | .num n => !(n == 0)
  | .str s => !s.isEmpty
  | .arr l => !l.isEmpty
  | .obj l => !l.isEmpty

/-- Python truthiness of `d.get(k)` (missing key → `None` → falsy). -/
def pyTruthyOJ (v : Option JVal) : Bool :=
  match v with
  | none => false
  | some j => pyTruthyJ j

/-- Tests whether `needle` occurs at the front of `hay` (character lists). -/
def isPrefixL : List Char → List Char → Bool
  | [], _ => true
  | _ :: _, [] => false
  | a :: as, b :: bs => a == b && isPrefixL as bs

/-- Tests whether `needle` occurs somewhere in `hay` (character lists). -/
def containsL (needle : List Char) : List Char → Bool
  | [] => needle.isEmpty
  | c :: rest => isPrefixL needle (c :: rest) || containsL needle rest

/-- Python substring test `needle in hay`. -/
def strContains (hay needle : String) : Bool :=
  containsL needle.data hay.data

/-- Python `str.lower` on one character (ASCII; the status strings the
source compares against are ASCII). -/
def charLower (c : Char) : Char :=
  if 65 ≤ c.toNat ∧ c.toNat ≤ 90 then Char.ofNat (c.toNat + 32) else c

/-- Python `str.lower` (ASCII). -/
def strLower (s : String) : String :=
  String.mk (s.data.map charLower)

/-- Strategy A of `parse_tool_response`: the structured checks on a parsed
dict, in source order (`returncode`, then `exit_code`, then `status`, then
`is_error`); a non-string `status` value raises `AttributeError` from
`.lower()`. -/
def structuredErrCheck (d : List (String × JVal)) : Except PyErr Bool :=
  if pyNeZeroJ (dictGetD d "returncode" (JVal.num 0)) then .ok true
  else if pyNeZeroJ (dictGetD d "exit_code" (JVal.num 0)) then .ok true
  else
    match dictGetD d "status" (JVal.str "") with
    | JVal.str s =>
      if strLower s = "error" || strLower s = "failure" || strLower s = "failed" then .ok true
      else .ok (pyTruthyOJ (dictGet d "is_error"))
    | _ => .error (.attributeError "lower")

/-- The structured signal carried by the parsed data of a response: Strategy A when
the parse produced a dict, `False` (no structured signal fired) otherwise. -/
def structSignalOf (data : Option JVal) : Except PyErr Bool :=
  match data with
  | some (JVal.obj d) => structuredErrCheck d
  | _ => .ok false

/-- Strategy B of `parse_tool_response`: the text heuristics
(`"❌" in content or "STATUS: FAILURE" in content or "CRITICAL ERROR" in
content`). -/
def textFailureHeur (content : String) : Bool :=
  strContains content "❌" || strContains content "STATUS: FAILURE" ||
    strContains content "CRITICAL ERROR"

/-- The dataclass `ToolResult` of `result.py`. -/
structure ToolResult where
  content : String
  data : Option JVal
  is_error : Bool
  error_message : Option String := none

/-- Embeds `parse_tool_response`, applied to the flattened text `content` and its
`json.loads` parse `data` (`none` when parsing raised). -/
def parseToolResponse (content : String) (data : Option JVal) : Except PyErr ToolResult :=
  match structSignalOf data with
  | .error e => .error e
  | .ok b =>
    let isErr := if b then true else textFailureHeur content
    .ok { content := content, data := data, is_error := isErr,
          error_message := if isErr then some content else none }

/-- A response whose JSON body carries an explicit non-error structured
signal (`returncode == 0`) but whose text contains the failure glyph. -/
def c8Content : String := "\x7b\"returncode\": 0, \"note\": \"❌\"\x7d"

/-- The `json.loads` parse of `c8Content`. -/
def c8Data : Option JVal :=
  some (JVal.obj [("returncode", JVal.num 0), ("note", JVal.str "❌")])

/-- The classification flag of a parse result (`none` when it raised). -/
def toolIsError (r : Except PyErr ToolResult) : Option Bool :=
  match r with
  | .ok t => some t.is_error
  | .error _ => none

/-- C8 counterexample: the response `{"returncode": 0, "note": "❌"}` parses
to structured data whose signal is explicitly non-error (`returncode == 0`),
yet `parse_tool_response` classifies it as an error because the text
heuristics still run — falsifying the claim that a structured non-error
signal suppresses the text heuristics. -/
theorem c8_counterexample :
    structSignalOf c8Data = .ok false ∧
    toolIsError (parseToolResponse c8Content c8Data) = some true := by
  constructor <;> rfl

/-- C8 (amended): structured signals take priority only in the error
direction.  If the structured checks on the parsed data flag an error, the
classification is an error regardless of text; if they do not (including
when they return an explicit non-error signal such as `returncode == 0`),
the text heuristics are still applied and fully decide the flag. -/
theorem c8_structured_priority (content : String) (data : Option JVal) (r : ToolResult)
    (h : parseToolResponse content data = .ok r) :
    (structSignalOf data = .ok true → r.is_error = true) ∧
    (structSignalOf data = .ok false → r.is_error = textFailureHeur content) := by
  unfold parseToolResponse at h
  cases hs : structSignalOf data with
  | error e => rw [hs] at h; cases h
  | ok b =>
    rw [hs] at h
    cases h
    constructor
    · intro hb
      injection hb with hbb
      subst hbb
      rfl
    · intro hb
      injection hb with hbb
      subst hbb
      rfl

/-- C8 witness: the amended statement applied at the glyph-bearing response
with `returncode == 0`. -/
theorem c8_structured_priority_witness :
    (structSignalOf c8Data = .ok true →
      ({ content := c8Content, data := c8Data, is_error := true,
         error_message := some c8Content } : ToolResult).is_error = true) ∧
    (structSignalOf c8Data = .ok false →
      ({ content := c8Content, data := c8Data, is_error := true,
         error_message := some c8Content } : ToolResult).is_error =
        textFailureHeur c8Content) :=
  c8_structured_priority c8Content c8Data
    { content := c8Content, data := c8Data, is_error := true,
      error_message := some c8Content } rfl

/-- C10: whenever `parse_tool_response` returns, `error_message` is non-`None`
exactly when `is_error` is set, in which case it equals the full textual
content of the response (which is also stored in `content`). -/
theorem c10_error_message_iff (content : String) (data : Option JVal) (r : ToolResult)
    (h : parseToolResponse content data = .ok r) :
    (¬ r.error_message = none ↔ r.is_error = true) ∧
    (r.is_error = true → r.error_message = some content) ∧
    r.content = content := by
  unfold parseToolResponse at h
  cases hs : structSignalOf data with
  | error e => rw [hs] at h; cases h
  | ok b =>
    rw [hs] at h
    cases h
    by_cases hb : (if b then true else textFailureHeur content) = true <;>
      simp [hb]

/-- C10 witness: an error-free plain-text response has `is_error = false` and
no `error_message`. -/
theorem c10_error_message_iff_witness :
    (¬ ({ content := "all good", data := none, is_error := false,
          error_message := none } : ToolResult).error_message = none ↔
      ({ content := "all good", data := none, is_error := false,
         error_message := none } : ToolResult).is_error = true) ∧
    (({ content := "all good", data := none, is_error := false,
        error_message := none } : ToolResult).is_error = true →
      ({ content := "all good", data := none, is_error := false,
         error_message := none } : ToolResult).error_message = some "all good") ∧
    ({ content := "all good", data := none, is_error := false,
       error_message := none } : ToolResult).content = "all good" :=
  c10_error_message_iff "all good" none
    { content := "all good", data := none, is_error := false, error_message := none } rfl

/-!
Manager run loop and recovery (`src/fractale/agent/manager/agent.py`).

`ManagerAgent.run_tasks` drives a list of manager-plan steps
(`src/fractale/agent/manager/plan.py`).  The shared run context here maps
keys to strings (`MCtx`); the `Context` class itself
(`fractale.agent.context`) is not part of the source tree, so its `reset`
operation is modelled from the spec (see `ctxReset`).  The per-step agent
execution (`MCPAgent` construction plus `agent.run(context, step)`) is an
external runner from the point of view of the loop and is passed in as
`runner : Nat → MCtx → Except PyErr MCtx` (step index and merged context in,
mutated context out); the claims under test themselves quantify over runner
behaviour ("a runner that fails on every execution").  Everything else in the
loop body is embedded faithfully.  In particular:

* after a failed step, once `reached_max_attempts()` is `False`, the source
  executes `self.attempts += 1` and then
  `action = self.ui.ask_user(f"Step Failed: \x7berr\x7d\nAction?", ...)`
  (line 266).  The local name `err` is never bound anywhere in `run_tasks`
  (the result variables are `result` and `error`), so evaluating the f-string
  raises `NameError: name \x27err\x27 is not defined` before `ask_user`, the
  recovery menu, `get_recovery_step` or `reset_context` can run.  The loop
  after that point is therefore modelled as raising exactly this `NameError`.
  (The paths beyond it are themselves unreachable dead code and also broken:
  `get_recovery_step` reads the unbound names `step_json` and
  `recovery_step`, and `ManagerAgent.reset_context` calls
  `step.reset_context` on manager-plan `Step` objects, which define no such
  method.)
* `ManagerAgent.run` wraps `run_tasks`: on a normal return it unconditionally
  overwrites `metadata["status"]` with `"Succeeded"`, and on an exception it
  sets `"Failed"` and re-raises. -/

/-- The manager-engine run context (key/value store). -/
abbrev MCtx : Type := List (String × String)

/-- Python `s.endswith(suffix)` (structural, so that proofs can evaluate). -/
def strEndsWith (s suffix : String) : Bool :=
  isPrefixL suffix.data.reverse s.data.reverse

/-- Modelled from the spec: the `Context.reset()` operation of the blackboard
(`fractale.agent.context` is not present under `src/`).  Spec §4.2: deletes
`result`, `error_message`, and every `<step>_result` key; preserves all other
(including global) keys. -/
def ctxReset (ctx : MCtx) : MCtx :=
  ctx.filter (fun kv =>
    !(kv.1 = "result" || kv.1 = "error_message" || strEndsWith kv.1 "_result"))

/-- One step of a manager plan (`fractale/agent/manager/plan.py`, class
`Step`): `name` and `prompt` are required by the schema. -/
structure MStep where
  name : String
  prompt : String
  description : Option String := none
  inputs : List (String × String) := []
  max_attempts : Option Nat := none
deriving DecidableEq, Repr

/-- Embeds `Step.update_context(context)`: merge the `inputs` of the step into the
context, skipping the reserved override keys. -/
def mStepUpdateContext (s : MStep) (ctx : MCtx) : MCtx :=
  s.inputs.foldl
    (fun c kv =>
      if kv.1 = "max_attempts" || kv.1 = "llm_provider" || kv.1 = "llm_model" then c
      else dictSet c kv.1 kv.2)
    ctx

/-- One tracker record appended per executed step (`duration` and the agent
metadata are opaque to every claim and omitted). -/
structure TrackEntry where
  agent : String
  result : Option String
  error : Option String
  attempts : Nat
deriving DecidableEq, Repr

/-- The mutable state of a `ManagerAgent` run: the shared context, the
current step index, the run-wide attempt counter, the tracker list and
`metadata["status"]`. -/
structure MgrState where
  context : MCtx
  index : Nat
  attempts : Nat
  tracker : List TrackEntry
  status : String
deriving DecidableEq, Repr

/-- How a `ManagerAgent` run ends: a Python exception carrying the state at
the moment of the raise (the shared context object remains observable), or a
normal return. -/
inductive RunOutcome where
  | crashed (e : PyErr) (st : MgrState)
  | finished (st : MgrState)
deriving DecidableEq, Repr

/-- Lines 311–316 of `run_tasks`: on leaving the loop, status is `Succeeded`
when every step completed, else `Failed`. -/
def finalizeStatus (planLen : Nat) (st : MgrState) : MgrState :=
  { st with status := if st.index = planLen then "Succeeded" else "Failed" }

/-- Embeds `ManagerAgent.run_tasks(context, plan)`: the global manager loop.  `fuel`
bounds the number of iterations of the Python `while` loop (every theorem
below instantiates it large enough for its scenario). -/
def runTasksLoop (fuel : Nat) (plan : List MStep) (runner : Nat → MCtx → Except PyErr MCtx)
    (maxAttempts : Nat) (st : MgrState) : RunOutcome :=
  match fuel with
  | 0 => .crashed .fuelExhausted st
  | fuel + 1 =>
    if h : st.index < plan.length then
      let step := plan.get ⟨st.index, h⟩
      let ctx0 := mStepUpdateContext step st.context
      match runner st.index ctx0 with
      | .error e => .crashed e { st with context := ctx0 }
      | .ok ctx1 =>
        let result := dictGet ctx1 "result"
        let error := dictGet ctx1 "error_message"
        let st1 : MgrState :=
          { st with
            context := ctx1,
            tracker := st.tracker ++
              [{ agent := step.name, result := result, error := error,
                 attempts := st.attempts }] }
        if pyTruthyS result && !pyTruthyS error then
          runTasksLoop fuel plan runner maxAttempts
            { st1 with index := st1.index + 1, context := ctxReset ctx1 }
        else if st1.attempts ≥ maxAttempts then
          .finished (finalizeStatus plan.length st1)
        else
          .crashed (.nameError "err") { st1 with attempts := st1.attempts + 1 }
    else
      .finished (finalizeStatus plan.length st)

/-- Embeds `ManagerAgent.run` around `run_tasks` (plan loading and persona
validation against the external server happen before the loop and are not
part of any claim): normal return overwrites status with `"Succeeded"`;
an exception sets `"Failed"` and propagates. -/
def managerRun (fuel : Nat) (plan : List MStep) (runner : Nat → MCtx → Except PyErr MCtx)
    (maxAttempts : Nat) (ctx : MCtx) : RunOutcome :=
  match runTasksLoop fuel plan runner maxAttempts
    { context := ctx, index := 0, attempts := 0, tracker := [], status := "Pending" } with
  | .finished st => .finished { st with status := "Succeeded" }
  | .crashed e st => .crashed e { st with status := "Failed" }

/-- The exception of a run outcome, when it crashed. -/
def runCrashErr (o : RunOutcome) : Option PyErr :=
  match o with
  | .crashed e _ => some e
  | .finished _ => none

/-- The final manager state of a run outcome. -/
def runState (o : RunOutcome) : MgrState :=
  match o with
  | .crashed _ st => st
  | .finished st => st

/-- The linear three-step manager plan `A -> B -> C` of the recovery-rewind
scenario. -/
def planABC : List MStep :=
  [{ name := "A", prompt := "pa" }, { name := "B", prompt := "pb" },
   { name := "C", prompt := "pc" }]

/-- A runner for the rewind scenario: `A` and `B` succeed (each also records
its `<step>_result`), `C` fails with an error message while leaving a partial
`C_result` behind. -/
def runnerABC : Nat → MCtx → Except PyErr MCtx := fun i ctx =>
  match i with
  | 0 => .ok (dictSet (dictSet ctx "result" "A done") "A_result" "A done")
  | 1 => .ok (dictSet (dictSet ctx "result" "B done") "B_result" "B done")
  | _ => .ok (dictSet (dictSet (dictSet ctx "result" "C partial output")
      "C_result" "partial") "error_message" "C exploded")

/-- C1 (code bug): on the plan `A -> B -> C` with `C` failing, the run
crashes with `NameError: name \x27err\x27 is not defined` (line 266 of
`agent/manager/agent.py`) the moment the failure is handled — before the
`retry/assist/auto/quit` menu, before the Recovery Advisor is consulted and
before any context rewind.  At the crash the current step index is still 2
(step `C`, not `A`) and the context still holds `C_result`; the advisor
answer `{agent_name: "A", ...}` can never even be requested, so the claimed
rewind (`current_state == "A"`, `B_result`/`C_result` erased) never happens.
(The code past the crash is also unrunnable: `get_recovery_step` reads the
unbound names `step_json`/`recovery_step`, and `reset_context` calls the
nonexistent `Step.reset_context`.) -/
theorem c1_recovery_rewind_crashes :
    runCrashErr (managerRun 20 planABC runnerABC 10 []) = some (.nameError "err") ∧
    (runState (managerRun 20 planABC runnerABC 10 [])).index = 2 ∧
    dictGet (runState (managerRun 20 planABC runnerABC 10 [])).context "C_result" =
      some "partial" ∧
    (runState (managerRun 20 planABC runnerABC 10 [])).status = "Failed" := by
  refine ⟨rfl, rfl, rfl, rfl⟩

/-- The one-step manager plan of the attempt-budget scenario. -/
def planS1 : List MStep := [{ name := "s1", prompt := "p1" }]

/-- A runner that fails on every execution (always sets `error_message`). -/
def failRunner : Nat → MCtx → Except PyErr MCtx := fun _ ctx =>
  .ok (dictSet ctx "error_message" "boom")

/-- C2 (code bug): with `max_attempts = 2` and an always-failing runner, the
run does NOT record 2 attempts and abort on the budget — it records exactly
one tracker entry, increments the attempt counter once, and then crashes
with `NameError: name \x27err\x27 is not defined` while formatting the
failure prompt; the status is `Failed` only because the exception handler
of `ManagerAgent.run` sets it.  (Had the loop survived to exhaust the budget,
`run` would then have overwritten the status with `"Succeeded"` on the
normal return, line 168.) -/
theorem c2_max_attempts_crashes :
    runCrashErr (managerRun 20 planS1 failRunner 2 []) = some (.nameError "err") ∧
    (runState (managerRun 20 planS1 failRunner 2 [])).tracker.length = 1 ∧
    (runState (managerRun 20 planS1 failRunner 2 [])).attempts = 1 ∧
    (runState (managerRun 20 planS1 failRunner 2 [])).status = "Failed" := by
  refine ⟨rfl, rfl, rfl, rfl⟩

end Fractale
